import Mathlib

/-!
Verification of the `blacky` PR-automation pipeline (`src/blacky/blacky.py`)
against its natural-language specification.

The Python program is shallowly embedded: every pure helper becomes a Lean
function translated from the source, and the effectful pipeline
(`handle_create_pr` and the stage functions it calls) is embedded as a
deterministic function from an explicit `World` oracle (results of the
external `git` / package-manager / `az` subprocesses and the operator's
stdin lines) to a trace of observable events plus an exit code.

Modelling conventions:
- Python strings are Lean `String`s; `str.strip()` is `pyStrip` (the same
  whitespace set restricted to the characters Lean can name directly).
- Python `re` is embedded as a small regular-expression engine (`RE`,
  `re_compile`, `re_search`) covering the constructs the configuration
  patterns use: literals, `^ $ . | * + ?`, escapes (`\d \w \s` and escaped
  punctuation), capture groups and `(?P<name>...)` named groups, with
  Python's leftmost / greedy / last-capture semantics.  Patterns outside
  this subset are treated as compile errors.  Universal theorems only
  condition on the outcome of `re_compile` / `re_search`, so they do not
  depend on engine completeness; concrete examples are evaluated.
- Paths are lists of segments (git emits normalized relative paths);
  `Path.as_posix` is `pathPosix`, `Path.parents` is `parentsOf`.
- A fallible Python expression (e.g. `None.strip()`) is `Except String`.
-/

/-! ### Python string primitives -/

/-- Python `str.strip` whitespace set (ASCII part). -/
def isPySpace (c : Char) : Bool :=
  c = ' ' || c = '\t' || c = '\n' || c = '\x0d' || c = '\x0b' || c = '\x0c'

/-- Python `str.strip()`: drop leading and trailing whitespace. -/
def pyStrip (s : String) : String :=
  ⟨((s.data.dropWhile isPySpace).reverse.dropWhile isPySpace).reverse⟩

/-- Python `str.lower()` (ASCII part). -/
def pyLower (s : String) : String :=
  ⟨s.data.map Char.toLower⟩

/-- Python `"\n".join(lines)`. -/
def joinNL (lines : List String) : String :=
  String.intercalate "\n" lines

/-- Split a character list at every occurrence of `sep` (the pieces, in
order; an empty input yields one empty piece, like Python `str.split`). -/
def splitCharsAux (sep : Char) : List Char → List Char → List (List Char)
  | [], acc => [acc.reverse]
  | c :: cs, acc =>
    if c = sep then acc.reverse :: splitCharsAux sep cs []
    else splitCharsAux sep cs (c :: acc)

/-- Python `s.split(sep)` for a one-character separator. -/
def splitOnChar (sep : Char) (s : String) : List String :=
  (splitCharsAux sep s.data []).map fun l => ⟨l⟩

/-- Python `str.splitlines()` restricted to `\n` separators. -/
def pySplitlines (s : String) : List String :=
  let parts := splitOnChar '\n' s
  if parts.getLast? = some "" then parts.dropLast else parts

/-- Python `s[n:]` on a string. -/
def strDropChars (n : Nat) (s : String) : String :=
  ⟨s.data.drop n⟩

/-- Decidable equality for `Except` results, used to evaluate embedded
functions on concrete inputs. -/
instance {ε α : Type} [DecidableEq ε] [DecidableEq α] : DecidableEq (Except ε α)
  | .error e, .error f =>
    if h : e = f then .isTrue (congrArg Except.error h)
    else .isFalse fun q => h (Except.error.inj q)
  | .error _, .ok _ => .isFalse Except.noConfusion
  | .ok _, .error _ => .isFalse Except.noConfusion
  | .ok a, .ok b =>
    if h : a = b then .isTrue (congrArg Except.ok h)
    else .isFalse fun q => h (Except.ok.inj q)

/-! ### Configuration loading (`load_config_file`, lines 67-160)

A parsed JSON configuration object is modelled by `RawConfig`: each of the
string-valued keys is `Option String` (`none` = key absent).  Python
truthiness on these values (`not x`) is `optFalsy`. -/

structure RawAzure where
  organizationUrl : Option String
  project : Option String
  repository : Option String
deriving DecidableEq, Repr

structure RawConfig where
  prTitleRegex : Option String
  packageManager : Option String
  targetBranch : Option String
  projectPackagePrefixKey : Option String
  azure : Option RawAzure
deriving DecidableEq, Repr

structure AzureConfig where
  organization_url : String
  project : String
  repository : String
deriving DecidableEq, Repr

structure BlackyConfig where
  pr_title_regex : String
  package_manager : String
  target_branch : String
  project_pkg_pref : String
  azure : AzureConfig
deriving DecidableEq, Repr

/-- Python falsiness of an optional string field: absent or empty. -/
def optFalsy : Option String → Bool
  | none => true
  | some s => s = ""

/-- The default used by `raw.get("azure") or {}`. -/
def emptyAzure : RawAzure := ⟨none, none, none⟩

/-- The `missing_keys` list accumulated by `load_config_file`, in source
order. -/
def missingKeys (raw : RawConfig) : List String :=
  let az := raw.azure.getD emptyAzure
  (if optFalsy raw.prTitleRegex then ["prTitleRegex"] else []) ++
  (if optFalsy raw.targetBranch then ["targetBranch"] else []) ++
  (if optFalsy raw.projectPackagePrefixKey then ["projectPackagePrefix"] else []) ++
  (if optFalsy raw.packageManager then ["packageManager"] else []) ++
  (if optFalsy az.organizationUrl then ["azure.organizationUrl"] else []) ++
  (if optFalsy az.project then ["azure.project"] else []) ++
  (if optFalsy az.repository then ["azure.repository"] else [])

/-- `load_config_file` on an already-parsed JSON object: either the list of
missing/empty required keys, or the validated configuration. -/
def load_config_file (raw : RawConfig) : Except (List String) BlackyConfig :=
  let az := raw.azure.getD emptyAzure
  if missingKeys raw = [] then
    .ok { pr_title_regex := raw.prTitleRegex.getD ""
          package_manager := raw.packageManager.getD ""
          target_branch := raw.targetBranch.getD ""
          project_pkg_pref := raw.projectPackagePrefixKey.getD ""
          azure := { organization_url := az.organizationUrl.getD ""
                     project := az.project.getD ""
                     repository := az.repository.getD "" } }
  else
    .error (missingKeys raw)

/-- The claim-side predicate: key `k` is one of the seven required keys and
its value in `raw` is absent or empty. -/
def requiredFalsy (raw : RawConfig) (k : String) : Prop :=
  (optFalsy raw.prTitleRegex = true ∧ k = "prTitleRegex") ∨
  (optFalsy raw.targetBranch = true ∧ k = "targetBranch") ∨
  (optFalsy raw.projectPackagePrefixKey = true ∧ k = "projectPackagePrefix") ∨
  (optFalsy raw.packageManager = true ∧ k = "packageManager") ∨
  (optFalsy (raw.azure.getD emptyAzure).organizationUrl = true ∧ k = "azure.organizationUrl") ∨
  (optFalsy (raw.azure.getD emptyAzure).project = true ∧ k = "azure.project") ∨
  (optFalsy (raw.azure.getD emptyAzure).repository = true ∧ k = "azure.repository")

instance (raw : RawConfig) (k : String) : Decidable (requiredFalsy raw k) := by
  unfold requiredFalsy; infer_instance

/-! ### A small embedding of Python `re` (`build_pr_title_from_branch`, lines 199-226) -/

/-- Regular-expression abstract syntax (the subset documented above). -/
inductive RE where
  | eps
  | lit (c : Char)
  | dot
  | digit
  | wordc
  | spacec
  | seq (a b : RE)
  | alt (a b : RE)
  | star (a : RE)
  | group (idx : Nat) (a : RE)
  | bol
  | eol
deriving DecidableEq, Repr

/-- Capture list: `(group index, start, end)`, most recent first (Python
keeps the last span captured by a group). -/
abbrev Caps := List (Nat × Nat × Nat)

/-- Size of a pattern, used only to pick a sufficient fuel. -/
def reSize : RE → Nat
  | .seq a b => reSize a + reSize b + 1
  | .alt a b => reSize a + reSize b + 1
  | .star a => reSize a + 1
  | .group _ a => reSize a + 1
  | _ => 1

/-- Backtracking matcher.  `mrun fuel re s pos caps` returns all ways the
pattern can match starting at `pos`, as `(end position, captures)` pairs in
Python preference order: alternation prefers the left branch, repetition is
greedy (more iterations first), and an empty repetition iteration stops the
loop. -/
def mrun : Nat → RE → List Char → Nat → Caps → List (Nat × Caps)
  | 0, _, _, _, _ => []
  | fuel + 1, re, s, pos, caps =>
    match re with
    | .eps => [(pos, caps)]
    | .lit c =>
      match s.get? pos with
      | some c2 => if c2 = c then [(pos + 1, caps)] else []
      | none => []
    | .dot =>
      match s.get? pos with
      | some c2 => if c2 = '\n' then [] else [(pos + 1, caps)]
      | none => []
    | .digit =>
      match s.get? pos with
      | some c2 => if c2.isDigit then [(pos + 1, caps)] else []
      | none => []
    | .wordc =>
      match s.get? pos with
      | some c2 => if c2.isAlphanum || c2 = '_' then [(pos + 1, caps)] else []
      | none => []
    | .spacec =>
      match s.get? pos with
      | some c2 => if isPySpace c2 then [(pos + 1, caps)] else []
      | none => []
    | .seq a b =>
      (mrun fuel a s pos caps).flatMap fun pc => mrun fuel b s pc.1 pc.2
    | .alt a b => mrun fuel a s pos caps ++ mrun fuel b s pos caps
    | .star a =>
      ((mrun fuel a s pos caps).filter fun pc => pc.1 ≠ pos).flatMap
        (fun pc => mrun fuel (.star a) s pc.1 pc.2) ++ [(pos, caps)]
    | .group i a =>
      (mrun fuel a s pos caps).map fun pc => (pc.1, (i, pos, pc.1) :: pc.2)
    | .bol => if pos = 0 then [(pos, caps)] else []
    | .eol => if pos = s.length then [(pos, caps)] else []

/-- A compiled pattern: syntax tree, number of capture groups, named-group
table. -/
structure Regex where
  re : RE
  ngroups : Nat
  names : List (String × Nat)
deriving DecidableEq, Repr

/-- A match object: the subject, the captures of the winning match, and the
group metadata of the pattern. -/
structure RMatch where
  src : List Char
  caps : Caps
  ngroups : Nat
  names : List (String × Nat)
deriving DecidableEq, Repr

/-- `m.group(i)`: the last span captured by group `i`, if it participated. -/
def RMatch.group (m : RMatch) (i : Nat) : Option String :=
  (m.caps.find? fun t => t.1 = i).map fun t => ⟨(m.src.drop t.2.1).take (t.2.2 - t.2.1)⟩

/-- `"title" in m.groupdict()`: the pattern defines a group of that name. -/
def RMatch.hasName (m : RMatch) (nm : String) : Bool :=
  (m.names.lookup nm).isSome

/-! #### Pattern parser (`re.compile` on the supported subset) -/

/-- Parser state: remaining input, next group number, named groups so far. -/
structure PState where
  rest : List Char
  g : Nat
  names : List (String × Nat)
deriving Repr

mutual

/-- Parse an alternation `seq ('|' seq)*`. -/
def parseAlt : Nat → List Char → Nat → List (String × Nat) →
    Except String (RE × PState)
  | 0, _, _, _ => .error "pattern too deeply nested"
  | fuel + 1, cs, g, ns => do
    let (a, st) ← parseSeq fuel cs g ns
    match st.rest with
    | '|' :: cs2 => do
      let (b, st2) ← parseAlt fuel cs2 st.g st.names
      return (.alt a b, st2)
    | _ => return (a, st)

/-- Parse a concatenation of quantified atoms, stopping at `|`, `)` or the
end of the pattern. -/
def parseSeq : Nat → List Char → Nat → List (String × Nat) →
    Except String (RE × PState)
  | 0, _, _, _ => .error "pattern too deeply nested"
  | fuel + 1, cs, g, ns =>
    match cs with
    | [] => .ok (.eps, ⟨[], g, ns⟩)
    | '|' :: _ => .ok (.eps, ⟨cs, g, ns⟩)
    | ')' :: _ => .ok (.eps, ⟨cs, g, ns⟩)
    | _ => do
      let (a, st) ← parseAtom fuel cs g ns
      let (a2, rest2) :=
        match st.rest with
        | '*' :: r => (RE.star a, r)
        | '+' :: r => (RE.seq a (.star a), r)
        | '?' :: r => (RE.alt a .eps, r)
        | r => (a, r)
      let (b, st2) ← parseSeq fuel rest2 st.g st.names
      return (.seq a2 b, st2)

/-- Parse a single atom: group, anchor, class escape, `.`, or literal. -/
def parseAtom : Nat → List Char → Nat → List (String × Nat) →
    Except String (RE × PState)
  | 0, _, _, _ => .error "pattern too deeply nested"
  | fuel + 1, cs, g, ns =>
    match cs with
    | [] => .error "unexpected end of pattern"
    | '(' :: '?' :: 'P' :: '<' :: cs2 =>
      let nameCs := cs2.takeWhile fun c => c ≠ '>'
      (match cs2.drop nameCs.length with
       | '>' :: cs3 => do
         let idx := g + 1
         let (body, st) ← parseAlt fuel cs3 idx (ns ++ [(⟨nameCs⟩, idx)])
         match st.rest with
         | ')' :: cs4 => return (.group idx body, ⟨cs4, st.g, st.names⟩)
         | _ => .error "missing ), unterminated group"
       | _ => .error "missing >, unterminated name")
    | '(' :: '?' :: ':' :: cs2 => do
      let (body, st) ← parseAlt fuel cs2 g ns
      (match st.rest with
       | ')' :: cs3 => return (body, ⟨cs3, st.g, st.names⟩)
       | _ => .error "missing ), unterminated group")
    | '(' :: '?' :: _ => .error "unsupported group extension"
    | '(' :: cs2 => do
      let idx := g + 1
      let (body, st) ← parseAlt fuel cs2 idx ns
      (match st.rest with
       | ')' :: cs3 => return (.group idx body, ⟨cs3, st.g, st.names⟩)
       | _ => .error "missing ), unterminated group")
    | '^' :: cs2 => .ok (.bol, ⟨cs2, g, ns⟩)
    | '$' :: cs2 => .ok (.eol, ⟨cs2, g, ns⟩)
    | '.' :: cs2 => .ok (.dot, ⟨cs2, g, ns⟩)
    | '*' :: _ => .error "nothing to repeat"
    | '+' :: _ => .error "nothing to repeat"
    | '?' :: _ => .error "nothing to repeat"
    | '[' :: _ => .error "character classes are outside the modelled subset"
    | '{' :: _ => .error "counted repetition is outside the modelled subset"
    | '\\' :: c :: cs2 =>
      if c = 'd' then .ok (.digit, ⟨cs2, g, ns⟩)
      else if c = 'w' then .ok (.wordc, ⟨cs2, g, ns⟩)
      else if c = 's' then .ok (.spacec, ⟨cs2, g, ns⟩)
      else if c.isAlphanum then .error "unsupported escape"
      else .ok (.lit c, ⟨cs2, g, ns⟩)
    | '\\' :: [] => .error "bad escape (end of pattern)"
    | c :: cs2 => .ok (.lit c, ⟨cs2, g, ns⟩)

end

/-- `re.compile` on the modelled subset. -/
def re_compile (pat : String) : Except String Regex := do
  let cs := pat.data
  let (re, st) ← parseAlt (2 * cs.length + 8) cs 0 []
  match st.rest with
  | [] => return ⟨re, st.g, st.names⟩
  | _ => .error "unbalanced parenthesis"

/-- Try a full backtracking match at each start position in turn and keep
the first success (Python `pattern.search`). -/
def re_searchAux (rx : Regex) (s : List Char) : List Nat → Option RMatch
  | [] => none
  | p :: ps =>
    match mrun ((s.length + 2) * (reSize rx.re + 2)) rx.re s p [] with
    | [] => re_searchAux rx s ps
    | pc :: _ => some ⟨s, pc.2, rx.ngroups, rx.names⟩

/-- `pattern.search(s)`. -/
def re_search (rx : Regex) (s : String) : Option RMatch :=
  re_searchAux rx s.data (List.range (s.data.length + 1))

/-! #### The title deriver itself -/

/-- The positional-group fallthrough of `build_pr_title_from_branch`:
`m.group(1).strip()` raises `AttributeError` when group 1 did not
participate in the match (`None.strip()`). -/
def title_positional (branch : String) (m : RMatch) : Except String String :=
  if 0 < m.ngroups then
    match m.group 1 with
    | some s => .ok (pyStrip s)
    | none => .error "AttributeError: NoneType object has no attribute strip"
  else .ok branch

/-- The group-selection cascade applied to a successful match. -/
def title_from_match (branch : String) (m : RMatch) : Except String String :=
  match m.names.lookup "title" with
  | some i =>
    match m.group i with
    | some t => if t ≠ "" then .ok (pyStrip t) else title_positional branch m
    | none => title_positional branch m
  | none => title_positional branch m

/-- `build_pr_title_from_branch` with its warning events: compile failure
and match failure warn and fall back to the raw branch name. -/
def build_pr_title_run (branch regex_pattern : String) :
    List String × Except String String :=
  match re_compile regex_pattern with
  | .error _ =>
    (["Configured prTitleRegex is invalid. Falling back to using the branch name as the PR title."],
     .ok branch)
  | .ok rx =>
    match re_search rx branch with
    | none =>
      (["Configured prTitleRegex did not match the branch name. Falling back to using the branch name as PR title."],
       .ok branch)
    | some m => ([], title_from_match branch m)

/-- `build_pr_title_from_branch` (pure value; `.error` marks an uncaught
Python exception). -/
def build_pr_title_from_branch (branch regex_pattern : String) :
    Except String String :=
  (build_pr_title_run branch regex_pattern).2

/-! ### Interactive prompts (`ask_multiline_markdown` lines 232-245,
`ask_change_type` lines 247-257)

Standard input is modelled as the finite list of lines the operator will
type; exhausting it is `EOFError` (which `ask_multiline_markdown` catches
and `ask_change_type` does not). -/

/-- The collection loop of `ask_multiline_markdown`: read lines until a
line that strips to `"."`, or end of input. -/
def collectDescLines : List String → List String
  | [] => []
  | l :: ls => if pyStrip l = "." then [] else l :: collectDescLines ls

/-- `ask_multiline_markdown`: joined collected lines, stripped. -/
def ask_multiline_markdown (input : List String) : String :=
  pyStrip (joinNL (collectDescLines input))

/-- The claim-side description collector, letter for letter: lines are
collected "until the first line consisting solely of a single `.`
character or until end-of-input". -/
def claimDescription (input : List String) : String :=
  pyStrip (joinNL (input.takeWhile fun l => l ≠ "."))

/-- Whether a change-type answer is accepted: its trimmed, lower-cased form
is one of the three valid values. -/
def isValidCT (l : String) : Bool :=
  let a := pyLower (pyStrip l)
  a = "patch" || a = "minor" || a = "major"

/-- Normalized form of an input line (`input(...).strip().lower()`). -/
def normCT (l : String) : String := pyLower (pyStrip l)

/-- `ask_change_type` over the operator's remaining input lines: the loop
returns the first accepted value; `none` means the input was exhausted (in
Python the loop would block forever on an unending stream of invalid lines
and raises `EOFError` once stdin closes). -/
def ask_change_type : List String → Option String
  | [] => none
  | l :: ls => if isValidCT l then some (normCT l) else ask_change_type ls

/-! ### Changed-package detection (`get_changed_packages`, lines 300-328)

The filesystem is modelled by the list of files that exist, each a list of
path segments; `Path.exists` on a path is membership in that list. -/

/-- `Path.as_posix()` for a normalized relative path. -/
def pathPosix : List String → String
  | [] => "."
  | segs => String.intercalate "/" segs

/-- `list(Path(p).parents)`: ancestors from the immediate directory down to
the degenerate root `.` (the empty segment list). -/
def parentsOf (p : List String) : List (List String) :=
  (List.range p.length).map fun i => p.take (p.length - 1 - i)

/-- `Path(p).name` for a normalized relative path. -/
def lastSeg (s : String) : String :=
  let l := (splitOnChar '/' s).getLastD ""
  if l = "." || l = ".." then "" else l

/-- The per-file walk of `get_changed_packages`: scan `[p] + p.parents` for
the first directory `d` with `d/package.json` existing. -/
def findPkgDir (fs : List (List String)) (p : List String) : Option (List String) :=
  (p :: parentsOf p).find? fun d => (d ++ ["package.json"]) ∈ fs

/-- The claim-side walk: start at the file's immediate directory and walk
upward to the first ancestor containing a package manifest. -/
def claimFirstPkgDir (fs : List (List String)) (p : List String) : Option (List String) :=
  (parentsOf p).find? fun d => (d ++ ["package.json"]) ∈ fs

/-- The core of `get_changed_packages`, from the changed-file list: the set
of manifest-bearing directories, as posix strings, filtered by
`len(pkg) > 1` and sorted ascending. -/
def changedPackagesOf (fs : List (List String)) (files : List (List String)) : List String :=
  let packages := (files.filterMap fun p => (findPkgDir fs p).map pathPosix).dedup
  List.insertionSort (· ≤ ·) (packages.filter fun pkg => 1 < pkg.length)

/-- Porcelain parsing in `get_changed_packages`: keep non-blank lines,
strip the two status characters and the space, split into segments. -/
def porcelainFiles (stdout : String) : List (List String) :=
  ((pySplitlines stdout).filter fun l => pyStrip l ≠ "").map fun l =>
    splitOnChar '/' (strDropChars 3 l)

/-! ### Changeset content (`create_and_edit_changeset`, lines 334-390) -/

/-- The `front_matter_lines` list built by the source: opening delimiter,
one entry per package using the directory's final segment, closing
delimiter, empty line. -/
def frontMatterLines (packages : List String) (pref change_type : String) : List String :=
  ["---"] ++
  (packages.map fun pkg_path =>
    "\"" ++ pref ++ "/" ++ lastSeg pkg_path ++ "\": " ++ change_type) ++
  ["---", ""]

/-- Opening a file in mode `"w"` truncates whatever was there. -/
def openTruncate (_prior : String) : String := ""

/-- The full content the source writes into the located changeset file:
the joined front matter, then - only when the (untrimmed) description is
non-empty - the stripped description plus a newline.  The previous content
of the file is discarded by the `"w"` open mode. -/
def changeset_write (prior : String) (packages : List String)
    (pref change_type description_md : String) : String :=
  let buf := openTruncate prior
  let buf := buf ++ joinNL (frontMatterLines packages pref change_type)
  if description_md ≠ "" then buf ++ pyStrip description_md ++ "\n" else buf

/-- The changeset content as claim C5 words it: front matter, then - if and
only if the TRIMMED description is non-empty - the trimmed description plus
a trailing newline. -/
def claimChangesetContent (packages : List String)
    (pref change_type description_md : String) : String :=
  joinNL (frontMatterLines packages pref change_type) ++
  (if pyStrip description_md ≠ "" then pyStrip description_md ++ "\n" else "")

/-- The amended content: as C5, but the body is present if and only if the
description is non-empty BEFORE trimming (a whitespace-only description
contributes just the trailing newline). -/
def amendedChangesetContent (packages : List String)
    (pref change_type description_md : String) : String :=
  joinNL (frontMatterLines packages pref change_type) ++
  (if description_md ≠ "" then pyStrip description_md ++ "\n" else "")

/-! ### PR submission command (`create_azure_pr`, lines 428-480) -/

/-- The fixed `az repos pr create` argument list (`base_cmd`). -/
def azBaseCmd (org_url project repo source_branch target_branch title description_md :
    String) : List String :=
  ["az", "repos", "pr", "create",
   "--organization", org_url,
   "--project", project,
   "--repository", repo,
   "--source-branch", source_branch,
   "--target-branch", target_branch,
   "--title", title,
   "--description", description_md]

/-- The dry-run display quoting: wrap a token in single quotes when it
contains a space. -/
def quoteTok (c : String) : String :=
  if c.data.contains ' ' then "\x27" ++ c ++ "\x27" else c

/-- The dry-run display line: two spaces of indent, then the quoted tokens
joined by single spaces. -/
def dryRunDisplay (cmd : List String) : String :=
  "  " ++ String.intercalate " " (cmd.map quoteTok)

/-! ### The pipeline (`handle_create_pr`, lines 486-552)

Observable behaviour is a list of events: executed subprocesses (with their
exit codes), the changeset-file overwrite, stdout prints (`Ev.info` for the
prefixed `info()` helper, `Ev.print` for bare prints) and stderr
diagnostics (`Ev.err`, covering `warn`/`error` and interpreter tracebacks;
interpolated runtime values inside some diagnostic texts are abridged). -/

inductive Ev where
  | cmd (args : List String) (exitCode : Nat)
  | write (content : String)
  | info (msg : String)
  | print (msg : String)
  | err (msg : String)
deriving DecidableEq, Repr

/-- `print_section`: a dashed banner around a title. -/
def sectionBanner (title : String) : String :=
  let line : String := ⟨List.replicate (max 10 (title.length + 4)) '-'⟩
  "\n" ++ line ++ "\n" ++ title ++ "\n" ++ line

/-- `run_command`: an info line followed by the subprocess itself. -/
def runCommandEv (c : List String) (exitCode : Nat) : List Ev :=
  [.info ("Running command:\n  " ++ String.intercalate " " c), .cmd c exitCode]

/-- The oracle for one run: everything the environment decides.  The
`rawConfig` field is `none` when the file is absent, `some none` when it is
unparsable JSON, `some (some raw)` when parsed; `branchStdout` is the
captured output of `git rev-parse --abbrev-ref HEAD` (`none` = command
failed); `changesetPrior` is whatever the scaffolding tool left in the
located changeset file. -/
structure World where
  rawConfig : Option (Option RawConfig)
  branchStdout : Option String
  descLines : List String
  ctLines : List String
  changesetExit : Nat
  changesetFound : Option String
  changesetPrior : String
  statusStdout : Option String
  fs : List (List String)
  installExit : Nat
  buildExit : Nat
  azExit : Nat
  azArgs : List String
deriving DecidableEq, Repr

/-- The example-configuration document printed on validation failure. -/
def exampleConfigText : String :=
  "\nExample configuration:\n\x7b\n  \"prTitleRegex\": \"^feature/(?P<title>.+)$\",\n  \"packageManager\": \"pnpm\",\n  \"targetBranch\": \"main\",\n  \"azure\": \x7b\n    \"organizationUrl\": \"https://dev.azure.com/<org>\",\n    \"project\": \"<project>\",\n    \"repository\": \"<repo-name>\"\n  \x7d\n\x7d\n"

/-- Configuration stage: `load_config_file(cwd / DEFAULT_CONFIG_FILE)`. -/
def load_config_run (w : World) : List Ev × Option BlackyConfig :=
  match w.rawConfig with
  | none =>
    ([.err "Configuration file not found at: blacky.conf.json\nBlacky expects a blacky.conf.json in your project root."], none)
  | some none =>
    ([.err "Could not parse blacky.conf.json as JSON.\nPlease fix the JSON syntax (trailing commas, quotes, etc.)."], none)
  | some (some raw) =>
    match load_config_file raw with
    | .error ks =>
      ([.err "Your blacky.conf.json is missing some required fields:"] ++
        ks.map (fun k => Ev.err ("  - " ++ k)) ++ [.err exampleConfigText], none)
    | .ok cfg => ([], some cfg)

/-- `get_current_branch`: a captured `git rev-parse`; the `HEAD` sentinel
means detached (silently `None`). -/
def get_current_branch_run (w : World) : List Ev × Option String :=
  match w.branchStdout with
  | none =>
    ([.cmd ["git", "rev-parse", "--abbrev-ref", "HEAD"] 1,
      .err "Could not determine current git branch. Are you inside a git repository?"], none)
  | some out =>
    ([.cmd ["git", "rev-parse", "--abbrev-ref", "HEAD"] 0],
     if pyStrip out = "HEAD" then none else some (pyStrip out))

/-- `get_changed_packages`: a captured `git status --porcelain`; failure
degrades to the empty set with a warning. -/
def get_changed_packages_run (w : World) : List Ev × List String :=
  match w.statusStdout with
  | none =>
    ([.cmd ["git", "status", "--porcelain"] 1,
      .err "Could not execute \x27git status\x27. Assuming no changed packages."], [])
  | some out =>
    ([.cmd ["git", "status", "--porcelain"] 0],
     changedPackagesOf w.fs (porcelainFiles out))

/-- `ask_multiline_markdown` with its prompt output. -/
def ask_multiline_run (w : World) : List Ev × String :=
  ([.print (sectionBanner "PR Description"),
    .info "Please provide a PR description in Markdown.",
    .print "Finish input with a single line \x27.\x27 or EOF (Ctrl+D):"],
   ask_multiline_markdown w.descLines)

/-- `ask_change_type` with its prompt output: one rejection message per
leading invalid line. -/
def ask_change_type_run (w : World) : List Ev × Option String :=
  ([.print (sectionBanner "Change Type")] ++
    (w.ctLines.takeWhile fun l => !isValidCT l).map
      (fun _ => Ev.print "Please enter \x27patch\x27, \x27minor\x27 or \x27major\x27."),
   ask_change_type w.ctLines)

/-- `create_and_edit_changeset`: scaffold, locate, compute the changed
packages, overwrite the file. -/
def create_and_edit_changeset_run (w : World)
    (package_manager description_md change_type pref : String) :
    List Ev × Option String :=
  let evs := [Ev.print (sectionBanner "Changeset")] ++
    runCommandEv [package_manager, "changeset", "--empty"] w.changesetExit
  if w.changesetExit ≠ 0 then
    (evs ++ [.err (package_manager ++ " changeset --empty failed. Is the changeset CLI installed and available in PATH?")], none)
  else
    match w.changesetFound with
    | none =>
      (evs ++ [.err "I could not find a newly created changeset file in .changeset. Did the command actually create one?"], none)
    | some latest =>
      let evs := evs ++ [Ev.info ("Editing changeset file: " ++ latest)]
      let gp := get_changed_packages_run w
      let evs := evs ++ gp.1 ++
        (if gp.2 = [] then
          [Ev.err "I could not find any changed packages with a package.json. The changeset will be created without explicit package entries."]
         else [])
      (evs ++ [.write (changeset_write w.changesetPrior gp.2 pref change_type description_md),
               .info "Changeset has been updated."], some latest)

/-- `run_local_build`: install then build, each aborting on nonzero exit. -/
def run_local_build_run (w : World) (package_manager : String) : List Ev × Bool :=
  let evs := [Ev.print (sectionBanner "Local Build")] ++
    runCommandEv [package_manager, "install"] w.installExit
  if w.installExit ≠ 0 then
    (evs ++ [.err "Installation step (install) failed. Blacky will abort before creating a PR."], false)
  else
    let evs := evs ++ runCommandEv [package_manager, "run", "build:all"] w.buildExit
    if w.buildExit ≠ 0 then
      (evs ++ [.err "Build step failed. I will not create a PR while the project does not build locally."], false)
    else
      (evs ++ [.info "Local build completed successfully."], true)

/-- `create_azure_pr`: dry-run prints the shell-quoted command and reports
success; live mode executes it. -/
def create_azure_pr_run (org_url project repo source_branch target_branch title
    description_md : String) (extra_az_args : List String) (azExit : Nat)
    (dry_run : Bool) : List Ev × Bool :=
  let cmd := azBaseCmd org_url project repo source_branch target_branch title
    description_md ++ extra_az_args
  let evs := [Ev.print (sectionBanner "Azure DevOps PR")]
  if dry_run then
    (evs ++ [.info "Dry-run is enabled: I will show you what I would do, but no PR will be created.",
             .print "Command would be:",
             .print (dryRunDisplay cmd)], true)
  else
    let evs := evs ++ runCommandEv cmd azExit
    if azExit ≠ 0 then
      (evs ++ [.err "Creating the PR with Azure CLI failed."], false)
    else
      (evs ++ [.info "Pull request was created successfully via Azure CLI."], true)

/-- Everything `create_azure_pr` needs, assembled by `handle_create_pr`. -/
structure SubmissionInput where
  org_url : String
  project : String
  repo : String
  source_branch : String
  target_branch : String
  title : String
  description_md : String
deriving DecidableEq, Repr

/-- Lines 487-535 of `handle_create_pr`: every stage before PR submission,
in source order.  Returns the trace so far and, when no stage aborted, the
inputs of the submission call.  `args.dry_run` is not consulted anywhere in
this part of the source. -/
def pipeline_before_submission (w : World) : List Ev × Option SubmissionInput :=
  let lc := load_config_run w
  let evs := [Ev.print (sectionBanner "Configuration")] ++ lc.1
  match lc.2 with
  | none => (evs, none)
  | some config =>
    let gb := get_current_branch_run w
    let evs := evs ++ [Ev.print (sectionBanner "Git")] ++ gb.1
    match gb.2 with
    | none => (evs ++ [.err "Without a current branch I cannot create a PR."], none)
    | some current_branch =>
      let bt := build_pr_title_run current_branch config.pr_title_regex
      let evs := evs ++ bt.1.map Ev.err
      match bt.2 with
      | .error e => (evs ++ [.err ("Traceback (most recent call last): " ++ e)], none)
      | .ok title =>
        let am := ask_multiline_run w
        let evs := evs ++ [Ev.info ("Suggested PR title: " ++ title)] ++ am.1
        let description := am.2
        let evs := evs ++
          (if description = "" then
            [Ev.err "You did not provide a description. The PR will be a bit terse."]
           else [])
        let ct := ask_change_type_run w
        let evs := evs ++ ct.1
        match ct.2 with
        | none => (evs ++ [.err "Traceback (most recent call last): EOFError"], none)
        | some change_type =>
          let cs := create_and_edit_changeset_run w config.package_manager description
            change_type config.project_pkg_pref
          let evs := evs ++ cs.1
          match cs.2 with
          | none =>
            (evs ++ [.err "I could not create a valid changeset. No PR without a changeset, sorry."], none)
          | some _ =>
            let rb := run_local_build_run w config.package_manager
            let evs := evs ++ rb.1
            if rb.2 then
              (evs, some
                { org_url := config.azure.organization_url
                  project := config.azure.project
                  repo := config.azure.repository
                  source_branch := current_branch
                  target_branch := config.target_branch
                  title := title
                  description_md :=
                    if description = "" then
                      "Automatically created by blacky for branch " ++ current_branch
                    else description })
            else (evs, none)

/-- `handle_create_pr`: the pre-submission pipeline, then - only if every
stage succeeded - the PR submission, whose `dry_run` flag comes straight
from the CLI.  Result: the event trace and the process exit code. -/
def handle_create_pr (w : World) (dry_run : Bool) : List Ev × Nat :=
  let pbs := pipeline_before_submission w
  match pbs.2 with
  | none => (pbs.1, 1)
  | some si =>
    let pr := create_azure_pr_run si.org_url si.project si.repo si.source_branch
      si.target_branch si.title si.description_md w.azArgs w.azExit dry_run
    (pbs.1 ++ pr.1, if pr.2 then 0 else 1)

/-- An event that belongs to the PR-submission operation: the executed
`az repos pr create` subprocess, or the dry-run display of it. -/
def isPrSubmission (e : Ev) : Bool :=
  match e with
  | .cmd args _ => args.take 4 = ["az", "repos", "pr", "create"]
  | .print s => s = "Command would be:"
  | _ => false

/-- Whether a trace contains the PR-submission operation in either form. -/
def prSubmissionIn (evs : List Ev) : Bool := evs.any isPrSubmission

/-- A failing install step in a trace. -/
def installFailedIn (evs : List Ev) : Prop :=
  ∃ pm k, Ev.cmd [pm, "install"] k ∈ evs ∧ k ≠ 0

/-- A failing build step in a trace. -/
def buildFailedIn (evs : List Ev) : Prop :=
  ∃ pm k, Ev.cmd [pm, "run", "build:all"] k ∈ evs ∧ k ≠ 0

/-- An event that is neither the PR submission nor an install/build step
with an unexpected exit code: used to describe every pre-submission trace.
The two implications pin the exit code of any install or build subprocess
event to the world's respective exit code. -/
def NeutralEv (installExit buildExit : Nat) (e : Ev) : Prop :=
  isPrSubmission e = false ∧
  (∀ pm k, e = Ev.cmd [pm, "install"] k → k = installExit) ∧
  (∀ pm k, e = Ev.cmd [pm, "run", "build:all"] k → k = buildExit)

/-! ### Concrete values used by witnesses and claim-side predicates -/

/-- Claim C2 branch condition: the pattern defines a named group `title`
that captured non-empty text. -/
def titleCapturedNonempty (m : RMatch) : Bool :=
  match m.names.lookup "title" with
  | some i =>
    match m.group i with
    | some t => t ≠ ""
    | none => false
  | none => false

/-- A configuration with `prTitleRegex` absent and `azure.project` empty. -/
def rawConfigTwoMissing : RawConfig :=
  { prTitleRegex := none
    packageManager := some "pnpm"
    targetBranch := some "main"
    projectPackagePrefixKey := some "@blacky"
    azure := some { organizationUrl := some "https://dev.azure.com/org"
                    project := some ""
                    repository := some "repo" } }

/-- A complete configuration (all seven values non-empty). -/
def rawConfigFull : RawConfig :=
  { prTitleRegex := some "^feature/(?P<title>.+)$"
    packageManager := some "pnpm"
    targetBranch := some "main"
    projectPackagePrefixKey := some "@blacky"
    azure := some { organizationUrl := some "https://dev.azure.com/org"
                    project := some "proj"
                    repository := some "repo" } }

def defaultRegex : Regex := ⟨.eps, 0, []⟩

def defaultRMatch : RMatch := ⟨[], [], 0, []⟩

/-- The compiled form of the claim C2 named-group example pattern. -/
def rxFeature : Regex :=
  (re_compile "^feature/(?P<title>.+)$").toOption.getD defaultRegex

/-- Its match against `feature/add-login`. -/
def mFeature : RMatch :=
  (re_search rxFeature "feature/add-login").getD defaultRMatch

/-- The compiled form of the claim C2 positional-group example pattern. -/
def rxBugfix : Regex :=
  (re_compile "^bugfix/(\\d+-.+)$").toOption.getD defaultRegex

/-- Its match against `bugfix/123-fix`. -/
def mBugfix : RMatch :=
  (re_search rxBugfix "bugfix/123-fix").getD defaultRMatch

/-- A compiled group-free pattern. -/
def rxPlain : Regex := (re_compile "b").toOption.getD defaultRegex

/-- Its match against `abc`. -/
def mPlain : RMatch := (re_search rxPlain "abc").getD defaultRMatch

/-- A compiled pattern with one group that can win without its group
participating: `(a)|b`. -/
def rxAltGroup : Regex := (re_compile "(a)|b").toOption.getD defaultRegex

/-- Its match against branch `b`: the right alternative wins, group 1
captures nothing. -/
def mAltGroup : RMatch := (re_search rxAltGroup "b").getD defaultRMatch

/-- A world whose install step fails (exit 1) and whose earlier stages all
succeed. -/
def worldInstallFails : World :=
  { rawConfig := some (some rawConfigFull)
    branchStdout := some "feature/add-login\n"
    descLines := ["Adds login support", "."]
    ctLines := ["foo", "minor"]
    changesetExit := 0
    changesetFound := some ".changeset/brave-llamas-smile.md"
    changesetPrior := "---\n---\n"
    statusStdout := some " M packages/core/src/index.ts"
    fs := [["packages", "core", "package.json"],
           ["packages", "core", "src", "index.ts"]]
    installExit := 1
    buildExit := 0
    azExit := 0
    azArgs := ["--draft"] }

/-- The same world with a succeeding install and a failing build. -/
def worldBuildFails : World :=
  { worldInstallFails with installExit := 0, buildExit := 1 }

/-- The same world with install and build both succeeding. -/
def worldAllOk : World :=
  { worldInstallFails with installExit := 0, buildExit := 0 }

/-! ### Shared lemmas -/

theorem mem_if_singleton {α : Type} {c : Prop} [Decidable c] (a k : α) :
    (k ∈ if c then [a] else []) ↔ c ∧ k = a := by
  split <;> simp_all

theorem mem_missingKeys (raw : RawConfig) (k : String) :
    k ∈ missingKeys raw ↔ requiredFalsy raw k := by
  unfold missingKeys requiredFalsy
  simp only [List.mem_append, mem_if_singleton]
  tauto

theorem optFalsy_false {o : Option String} (h : optFalsy o = false) :
    o = some (o.getD "") ∧ o.getD "" ≠ "" := by
  cases o with
  | none => simp [optFalsy] at h
  | some s => simp [optFalsy] at h; simpa using h

/-! ### C1: config validation reports exactly the missing/empty keys -/

/-- C1: for every parsed JSON configuration object, `load_config_file`
fails if and only if at least one of the seven required fields is absent or
empty; on failure the reported key list contains exactly the absent/empty
required keys (every one of them and no others); on success the returned
configuration carries the seven values. -/
theorem config_validation_exact (raw : RawConfig) :
    ((∃ k, requiredFalsy raw k) ↔ (∃ ks, load_config_file raw = .error ks)) ∧
    (∀ ks, load_config_file raw = .error ks →
      ks ≠ [] ∧ (∀ k, k ∈ ks ↔ requiredFalsy raw k)) ∧
    (∀ cfg, load_config_file raw = .ok cfg →
      raw.prTitleRegex = some cfg.pr_title_regex ∧
      raw.packageManager = some cfg.package_manager ∧
      raw.targetBranch = some cfg.target_branch ∧
      raw.projectPackagePrefixKey = some cfg.project_pkg_pref ∧
      ∃ az, raw.azure = some az ∧
        az.organizationUrl = some cfg.azure.organization_url ∧
        az.project = some cfg.azure.project ∧
        az.repository = some cfg.azure.repository) := by
  by_cases hm : missingKeys raw = []
  · refine ⟨?_, ?_, ?_⟩
    · constructor
      · rintro ⟨k, hk⟩
        exact absurd (hm ▸ (mem_missingKeys raw k).mpr hk) (List.not_mem_nil k)
      · rintro ⟨ks, hks⟩
        unfold load_config_file at hks
        rw [if_pos hm] at hks
        exact Except.noConfusion hks
    · intro ks hks
      unfold load_config_file at hks
      rw [if_pos hm] at hks
      exact Except.noConfusion hks
    · intro cfg hcfg
      unfold load_config_file at hcfg
      rw [if_pos hm] at hcfg
      have hfields := Except.ok.inj hcfg
      have hnone : ∀ k, ¬ requiredFalsy raw k := by
        intro k hk
        exact absurd (hm ▸ (mem_missingKeys raw k).mpr hk) (List.not_mem_nil k)
      have h1 : optFalsy raw.prTitleRegex = false := by
        by_contra h
        exact hnone "prTitleRegex" (Or.inl ⟨by simpa using h, rfl⟩)
      have h2 : optFalsy raw.targetBranch = false := by
        by_contra h
        exact hnone "targetBranch" (Or.inr (Or.inl ⟨by simpa using h, rfl⟩))
      have h3 : optFalsy raw.projectPackagePrefixKey = false := by
        by_contra h
        exact hnone "projectPackagePrefix" (Or.inr (Or.inr (Or.inl ⟨by simpa using h, rfl⟩)))
      have h4 : optFalsy raw.packageManager = false := by
        by_contra h
        exact hnone "packageManager" (Or.inr (Or.inr (Or.inr (Or.inl ⟨by simpa using h, rfl⟩))))
      have h5 : optFalsy (raw.azure.getD emptyAzure).organizationUrl = false := by
        by_contra h
        exact hnone "azure.organizationUrl"
          (Or.inr (Or.inr (Or.inr (Or.inr (Or.inl ⟨by simpa using h, rfl⟩)))))
      have h6 : optFalsy (raw.azure.getD emptyAzure).project = false := by
        by_contra h
        exact hnone "azure.project"
          (Or.inr (Or.inr (Or.inr (Or.inr (Or.inr (Or.inl ⟨by simpa using h, rfl⟩))))))
      have h7 : optFalsy (raw.azure.getD emptyAzure).repository = false := by
        by_contra h
        exact hnone "azure.repository"
          (Or.inr (Or.inr (Or.inr (Or.inr (Or.inr (Or.inr ⟨by simpa using h, rfl⟩))))))
      have haz : raw.azure = some (raw.azure.getD emptyAzure) := by
        cases hc : raw.azure with
        | none => rw [hc] at h5; simp [emptyAzure, optFalsy] at h5
        | some az => rfl
      subst hfields
      exact ⟨(optFalsy_false h1).1, (optFalsy_false h4).1, (optFalsy_false h2).1,
        (optFalsy_false h3).1,
        ⟨raw.azure.getD emptyAzure, haz, (optFalsy_false h5).1, (optFalsy_false h6).1,
          (optFalsy_false h7).1⟩⟩
  · have hload : load_config_file raw = .error (missingKeys raw) := by
      unfold load_config_file
      rw [if_neg hm]
    refine ⟨?_, ?_, ?_⟩
    · constructor
      · intro _
        exact ⟨missingKeys raw, hload⟩
      · intro _
        obtain ⟨k, hk⟩ := List.exists_mem_of_ne_nil _ hm
        exact ⟨k, (mem_missingKeys raw k).mp hk⟩
    · intro ks hks
      rw [hload] at hks
      have : missingKeys raw = ks := Except.error.inj hks
      subst this
      exact ⟨hm, fun k => mem_missingKeys raw k⟩
    · intro cfg hcfg
      rw [hload] at hcfg
      exact Except.noConfusion hcfg

/-- Witness for C1, at a configuration missing exactly two keys. -/
theorem config_validation_exact_witness :
    load_config_file rawConfigTwoMissing = .error ["prTitleRegex", "azure.project"] ∧
    (∀ k, k ∈ ["prTitleRegex", "azure.project"] ↔ requiredFalsy rawConfigTwoMissing k) := by
  refine ⟨by decide, ?_⟩
  exact ((config_validation_exact rawConfigTwoMissing).2.1 _ (by decide)).2

/-! ### C2 and C3: the title deriver -/

/-- C2: whenever the pattern compiles and matches, the derived title
follows the cascade: non-empty named `title` capture (trimmed), else first
positional capture (trimmed), else the raw branch name; and the two
concrete examples of the claim. -/
theorem title_cascade :
    (∀ branch pat rx m i t, re_compile pat = .ok rx → re_search rx branch = some m →
      m.names.lookup "title" = some i → m.group i = some t → t ≠ "" →
      build_pr_title_from_branch branch pat = .ok (pyStrip t)) ∧
    (∀ branch pat rx m s, re_compile pat = .ok rx → re_search rx branch = some m →
      titleCapturedNonempty m = false → 0 < m.ngroups → m.group 1 = some s →
      build_pr_title_from_branch branch pat = .ok (pyStrip s)) ∧
    (∀ branch pat rx m, re_compile pat = .ok rx → re_search rx branch = some m →
      titleCapturedNonempty m = false → m.ngroups = 0 →
      build_pr_title_from_branch branch pat = .ok branch) ∧
    build_pr_title_from_branch "feature/add-login" "^feature/(?P<title>.+)$" =
      .ok "add-login" ∧
    build_pr_title_from_branch "bugfix/123-fix" "^bugfix/(\\d+-.+)$" = .ok "123-fix" := by
  refine ⟨?_, ?_, ?_, by decide, by decide⟩
  · intro branch pat rx m i t hc hs hl hg ht
    simp only [build_pr_title_from_branch, build_pr_title_run, hc, hs]
    unfold title_from_match
    simp only [hl, hg]
    simp [ht]
  · intro branch pat rx m s hc hs hne hpos hg1
    simp only [build_pr_title_from_branch, build_pr_title_run, hc, hs]
    unfold title_from_match title_positional
    unfold titleCapturedNonempty at hne
    cases hl : m.names.lookup "title" with
    | none => simp only [hl, if_pos hpos, hg1]
    | some i =>
      simp only [hl] at hne
      cases hgi : m.group i with
      | none => simp only [hl, hgi, if_pos hpos, hg1]
      | some t =>
        simp only [hgi] at hne
        simp only [ne_eq, decide_not, Bool.not_eq_eq_eq_not, Bool.not_false,
          decide_eq_true_eq] at hne
        simp only [hl, hgi, hne, if_pos hpos, hg1]
        simp
  · intro branch pat rx m hc hs hne hzero
    simp only [build_pr_title_from_branch, build_pr_title_run, hc, hs]
    unfold title_from_match title_positional
    unfold titleCapturedNonempty at hne
    have hnotpos : ¬ 0 < m.ngroups := by omega
    cases hl : m.names.lookup "title" with
    | none => simp only [hl, if_neg hnotpos]
    | some i =>
      simp only [hl] at hne
      cases hgi : m.group i with
      | none => simp only [hl, hgi, if_neg hnotpos]
      | some t =>
        simp only [hgi] at hne
        simp only [ne_eq, decide_not, Bool.not_eq_eq_eq_not, Bool.not_false,
          decide_eq_true_eq] at hne
        simp only [hl, hgi, hne, if_neg hnotpos]
        simp

/-- Witness for C2: the three cascade branches applied at concrete
compiled patterns and matches. -/
theorem title_cascade_witness :
    build_pr_title_from_branch "feature/add-login" "^feature/(?P<title>.+)$" =
      .ok "add-login" ∧
    build_pr_title_from_branch "bugfix/123-fix" "^bugfix/(\\d+-.+)$" = .ok "123-fix" ∧
    build_pr_title_from_branch "abc" "b" = .ok "abc" := by
  refine ⟨?_, ?_, ?_⟩
  · have h := title_cascade.1 "feature/add-login" "^feature/(?P<title>.+)$" rxFeature
      mFeature 1 "add-login" (by decide) (by decide) (by decide) (by decide) (by decide)
    rw [show pyStrip "add-login" = "add-login" by decide] at h
    exact h
  · have h := title_cascade.2.1 "bugfix/123-fix" "^bugfix/(\\d+-.+)$" rxBugfix mBugfix
      "123-fix" (by decide) (by decide) (by decide) (by decide) (by decide)
    rw [show pyStrip "123-fix" = "123-fix" by decide] at h
    exact h
  · exact title_cascade.2.2.1 "abc" "b" rxPlain mPlain (by decide) (by decide)
      (by decide) (by decide)

/-- C3 (refuting the never-raises part): on branch `b` with the valid,
matching pattern `(a)|b` the pattern compiles and matches, the named-title
and non-empty-capture conditions fail, at least one positional group
exists, group 1 did not participate - and `m.group(1).strip()` evaluates
`None.strip()`, an uncaught `AttributeError`, instead of returning a
string. -/
theorem title_deriver_raises_on_unparticipating_group :
    re_compile "(a)|b" = .ok rxAltGroup ∧
    re_search rxAltGroup "b" = some mAltGroup ∧
    mAltGroup.ngroups = 1 ∧
    mAltGroup.group 1 = none ∧
    build_pr_title_from_branch "b" "(a)|b" =
      .error "AttributeError: NoneType object has no attribute strip" := by
  decide

/-! ### C8: the description prompt -/

/-- C8 counterexample: the source terminates collection on any line that
STRIPS to `.`, so the line `" ."` - which does not consist solely of a
single `.` character - already terminates it, while the claim collects it
and the following line. -/
theorem description_terminator_counterexample :
    ask_multiline_markdown [" .", "tail"] = "" ∧
    claimDescription [" .", "tail"] = ".\ntail" ∧
    ask_multiline_markdown [" .", "tail"] ≠ claimDescription [" .", "tail"] := by
  decide

/-- C8 amended: collection stops at the first line whose TRIMMED form is a
single `.` (or at end of input); the result is the collected lines joined
with newlines, trimmed of surrounding whitespace; including both concrete
examples of the claim. -/
theorem description_collection_amended :
    (∀ input : List String,
      ask_multiline_markdown input =
        pyStrip (joinNL (input.takeWhile fun l => pyStrip l ≠ "."))) ∧
    ask_multiline_markdown ["Line one", "Line two", "."] = "Line one\nLine two" ∧
    ask_multiline_markdown ["Line one", "Line two"] = "Line one\nLine two" := by
  refine ⟨?_, by decide, by decide⟩
  intro input
  unfold ask_multiline_markdown
  have h : collectDescLines input = input.takeWhile fun l => pyStrip l ≠ "." := by
    induction input with
    | nil => rfl
    | cons l ls ih =>
      by_cases h : pyStrip l = "."
      · simp [collectDescLines, List.takeWhile_cons, h]
      · simp [collectDescLines, List.takeWhile_cons, h, ih]
  rw [h]

/-! ### C9: the change-type prompt -/

/-- C9: the change-type prompt accepts exactly the first line whose
trimmed, lower-cased form is `patch`, `minor` or `major`, returning the
normalized value, re-prompting on every earlier line; it terminates (the
loop returns) if and only if the input contains such a line; on
`"foo"` then `"minor"` it rejects exactly one line and returns `minor`. -/
theorem change_type_prompt :
    (∀ input : List String,
      ask_change_type input = (input.find? isValidCT).map normCT) ∧
    (∀ input : List String,
      ask_change_type input = none ↔ ∀ l ∈ input, isValidCT l = false) ∧
    ask_change_type ["foo", "minor"] = some "minor" ∧
    (["foo", "minor"].takeWhile fun l => !isValidCT l).length = 1 := by
  have hfind : ∀ input : List String,
      ask_change_type input = (input.find? isValidCT).map normCT := by
    intro input
    induction input with
    | nil => rfl
    | cons l ls ih =>
      by_cases h : isValidCT l
      · simp [ask_change_type, h, List.find?_cons_of_pos]
      · simp only [ask_change_type] at *
        simp [h, List.find?_cons_of_neg, ih]
  refine ⟨hfind, ?_, by decide, by decide⟩
  intro input
  rw [hfind input]
  simp [List.find?_eq_none]

/-- Witness for C9 at the claim's concrete input. -/
theorem change_type_prompt_witness :
    ask_change_type ["foo", "minor"] = some "minor" :=
  change_type_prompt.2.2.1

/-! ### C4: changed-package detection -/

theorem findPkgDir_eq_claim {fs : List (List String)} {f : List String}
    (h : (f ++ ["package.json"]) ∉ fs) :
    findPkgDir fs f = claimFirstPkgDir fs f := by
  unfold findPkgDir claimFirstPkgDir
  rw [List.find?_cons_of_neg]
  simpa using h

/-- C4 counterexample: for changed file `a/x.ts` with manifest
`a/package.json`, the first manifest-bearing ancestor is the directory `a`,
which is not the degenerate root, yet the source excludes it (its path
string has length 1, and the filter keeps only `len(pkg) > 1`), so the
changed-package set comes out empty where the claim requires `["a"]`. -/
theorem changed_packages_excludes_single_char_dir :
    claimFirstPkgDir [["a", "package.json"]] ["a", "x.ts"] = some ["a"] ∧
    pathPosix ["a"] ≠ "." ∧
    changedPackagesOf [["a", "package.json"]] [["a", "x.ts"]] = [] := by
  decide

/-- C4 amended: provided no changed-file path itself carries a
`package.json` suffix in the file list (true of real worktrees, where a
changed path is a file), the result is sorted ascending and deduplicated,
and contains exactly the posix forms of each file's first
manifest-bearing ancestor (starting at the immediate directory) whose path
string is longer than one character - which excludes the degenerate root
`.` but also any other single-character directory path. -/
theorem changed_packages_amended (fs files : List (List String))
    (hfiles : ∀ f ∈ files, (f ++ ["package.json"]) ∉ fs) :
    List.Sorted (· ≤ ·) (changedPackagesOf fs files) ∧
    (changedPackagesOf fs files).Nodup ∧
    (∀ s, s ∈ changedPackagesOf fs files ↔
      1 < s.length ∧ ∃ f ∈ files, ∃ d, claimFirstPkgDir fs f = some d ∧ pathPosix d = s) := by
  refine ⟨?_, ?_, ?_⟩
  · exact List.sorted_insertionSort _ _
  · exact ((List.perm_insertionSort _ _).nodup_iff).mpr ((List.nodup_dedup _).filter _)
  · intro s
    unfold changedPackagesOf
    rw [(List.perm_insertionSort _ _).mem_iff, List.mem_filter, List.mem_dedup,
      List.mem_filterMap]
    constructor
    · rintro ⟨⟨f, hf, hgf⟩, hlen⟩
      rw [findPkgDir_eq_claim (hfiles f hf)] at hgf
      obtain ⟨d, hd, hds⟩ := Option.map_eq_some'.mp hgf
      exact ⟨by simpa using hlen, f, hf, d, hd, hds⟩
    · rintro ⟨hlen, f, hf, d, hd, hds⟩
      refine ⟨⟨f, hf, ?_⟩, by simpa using hlen⟩
      rw [findPkgDir_eq_claim (hfiles f hf), hd]
      simpa using hds

/-- Witness for C4 at a concrete worktree. -/
theorem changed_packages_amended_witness :
    "packages/core" ∈
      changedPackagesOf [["packages", "core", "package.json"]]
        [["packages", "core", "src", "x.ts"]] ∧
    List.Sorted (· ≤ ·)
      (changedPackagesOf [["packages", "core", "package.json"]]
        [["packages", "core", "src", "x.ts"]]) := by
  have h := changed_packages_amended [["packages", "core", "package.json"]]
    [["packages", "core", "src", "x.ts"]] (by decide)
  refine ⟨(h.2.2 "packages/core").mpr ?_, h.1⟩
  exact ⟨by decide, ["packages", "core", "src", "x.ts"], by decide,
    ["packages", "core"], by decide, by decide⟩

/-! ### C5: the changeset overwrite -/

/-- C5 counterexample: the source guards the body on the UNtrimmed
description (`if description_md:`), so a whitespace-only description - whose
trimmed form is empty - still appends `strip(description) + "\n"`, i.e. a
stray newline, where the claim (body present iff the TRIMMED description is
non-empty) forbids any body. -/
theorem changeset_trimmed_iff_counterexample :
    changeset_write "scaffolded" [] "@blacky" "patch" " " = "---\n---\n\n" ∧
    claimChangesetContent [] "@blacky" "patch" " " = "---\n---\n" ∧
    changeset_write "scaffolded" [] "@blacky" "patch" " " ≠
      claimChangesetContent [] "@blacky" "patch" " " := by
  decide

/-- C5 amended: for every prior file content, package list, prefix, change
type and description, the written file content is exactly the front matter
(opening delimiter, one `"<pref>/<dirname>": <type>` line per package
using the final path segment, closing delimiter, blank line) followed by
the trimmed description plus trailing newline if and only if the
description is non-empty BEFORE trimming; the prior content plays no part
(full overwrite). -/
theorem changeset_content_amended (prior : String) (packages : List String)
    (pref change_type description_md : String) :
    changeset_write prior packages pref change_type description_md =
      amendedChangesetContent packages pref change_type description_md := by
  unfold changeset_write amendedChangesetContent openTruncate
  by_cases h : description_md = "" <;> simp [h, String.append_assoc]

/-! ### C6: dry-run PR submission -/

/-- C6: with dry-run enabled the submitter executes no subprocess at all,
reports success, and prints the fully assembled argument list - the fixed
flags followed by the passthrough tokens appended verbatim - in the
shell-quoted display form, whatever the configuration values are. -/
theorem dry_run_never_executes (org_url project repo source_branch target_branch
    title description_md : String) (extra : List String) (azExit : Nat) :
    (∀ c k, Ev.cmd c k ∉
      (create_azure_pr_run org_url project repo source_branch target_branch title
        description_md extra azExit true).1) ∧
    (create_azure_pr_run org_url project repo source_branch target_branch title
      description_md extra azExit true).2 = true ∧
    Ev.print (dryRunDisplay (azBaseCmd org_url project repo source_branch
        target_branch title description_md ++ extra)) ∈
      (create_azure_pr_run org_url project repo source_branch target_branch title
        description_md extra azExit true).1 := by
  unfold create_azure_pr_run
  refine ⟨?_, by simp, by simp⟩
  intro c k
  simp

/-! ### Pre-submission trace analysis (shared by C7 and C10) -/

theorem neutralEv_err (i b : Nat) (m : String) : NeutralEv i b (Ev.err m) := by
  refine ⟨rfl, ?_, ?_⟩ <;> (intro pm k h; simp at h)

theorem neutralEv_info (i b : Nat) (m : String) : NeutralEv i b (Ev.info m) := by
  refine ⟨rfl, ?_, ?_⟩ <;> (intro pm k h; simp at h)

theorem neutralEv_write (i b : Nat) (m : String) : NeutralEv i b (Ev.write m) := by
  refine ⟨rfl, ?_, ?_⟩ <;> (intro pm k h; simp at h)

theorem neutralEv_print (i b : Nat) (m : String) (hm : m ≠ "Command would be:") :
    NeutralEv i b (Ev.print m) := by
  refine ⟨by simpa [isPrSubmission] using hm, ?_, ?_⟩ <;> (intro pm k h; simp at h)

theorem banner_ne_marker (t : String) : sectionBanner t ≠ "Command would be:" := by
  unfold sectionBanner
  intro h
  have := congrArg (fun s => s.data.head?) h
  simp [String.data_append] at this

theorem load_config_run_neutral (w : World) (i b : Nat) :
    ∀ e ∈ (load_config_run w).1, NeutralEv i b e := by
  intro e he
  unfold load_config_run at he
  cases hw : w.rawConfig with
  | none =>
    simp only [hw] at he
    simp at he
    subst he
    exact neutralEv_err i b _
  | some o =>
    cases o with
    | none =>
      simp only [hw] at he
      simp at he
      subst he
      exact neutralEv_err i b _
    | some raw =>
      simp only [hw] at he
      cases hl : load_config_file raw with
      | error ks =>
        simp only [hl] at he
        simp at he
        rcases he with rfl | ⟨k, hk, rfl⟩ | rfl <;> exact neutralEv_err i b _
      | ok cfg =>
        simp only [hl] at he
        simp at he

theorem get_current_branch_run_neutral (w : World) (i b : Nat) :
    ∀ e ∈ (get_current_branch_run w).1, NeutralEv i b e := by
  intro e he
  unfold get_current_branch_run at he
  cases hw : w.branchStdout with
  | none =>
    simp only [hw] at he
    simp at he
    rcases he with rfl | rfl
    · refine ⟨rfl, ?_, ?_⟩ <;> (intro pm k h; simp at h)
    · exact neutralEv_err i b _
  | some out =>
    simp only [hw] at he
    simp at he
    subst he
    refine ⟨rfl, ?_, ?_⟩ <;> (intro pm k h; simp at h)

theorem ask_multiline_run_neutral (w : World) (i b : Nat) :
    ∀ e ∈ (ask_multiline_run w).1, NeutralEv i b e := by
  intro e he
  unfold ask_multiline_run at he
  simp at he
  rcases he with rfl | rfl | rfl
  · exact neutralEv_print i b _ (banner_ne_marker _)
  · exact neutralEv_info i b _
  · exact neutralEv_print i b _ (by decide)

theorem ask_change_type_run_neutral (w : World) (i b : Nat) :
    ∀ e ∈ (ask_change_type_run w).1, NeutralEv i b e := by
  intro e he
  unfold ask_change_type_run at he
  simp at he
  rcases he with rfl | ⟨x, hx, rfl⟩
  · exact neutralEv_print i b _ (banner_ne_marker _)
  · exact neutralEv_print i b _ (by decide)

theorem get_changed_packages_run_neutral (w : World) (i b : Nat) :
    ∀ e ∈ (get_changed_packages_run w).1, NeutralEv i b e := by
  intro e he
  unfold get_changed_packages_run at he
  cases hw : w.statusStdout with
  | none =>
    simp only [hw] at he
    simp at he
    rcases he with rfl | rfl
    · refine ⟨rfl, ?_, ?_⟩ <;> (intro pm k h; simp at h)
    · exact neutralEv_err i b _
  | some out =>
    simp only [hw] at he
    simp at he
    subst he
    refine ⟨rfl, ?_, ?_⟩ <;> (intro pm k h; simp at h)

theorem neutralEv_cmd3 (i b : Nat) (x y : String) (pm : String) (k : Nat)
    (hx : x ≠ "run" ∨ y ≠ "build:all") :
    NeutralEv i b (Ev.cmd [pm, x, y] k) := by
  refine ⟨by simp [isPrSubmission], ?_, ?_⟩
  · intro pm2 k2 h
    simp at h
  · intro pm2 k2 h
    simp at h
    rcases hx with hx | hx
    · exact absurd h.1.2.1 hx
    · exact absurd h.1.2.2 hx

theorem create_and_edit_changeset_run_neutral (w : World)
    (pm desc ct pref : String) (i b : Nat) :
    ∀ e ∈ (create_and_edit_changeset_run w pm desc ct pref).1, NeutralEv i b e := by
  intro e he
  unfold create_and_edit_changeset_run runCommandEv at he
  by_cases hce : w.changesetExit = 0
  · rw [if_neg (by omega)] at he
    cases hf : w.changesetFound with
    | none =>
      simp only [hf] at he
      simp at he
      rcases he with rfl | rfl | rfl | rfl
      · exact neutralEv_print i b _ (banner_ne_marker _)
      · exact neutralEv_info i b _
      · exact neutralEv_cmd3 i b _ _ _ _ (Or.inl (by decide))
      · exact neutralEv_err i b _
    | some latest =>
      simp only [hf] at he
      simp only [List.append_assoc, List.cons_append, List.nil_append,
        List.mem_cons, List.mem_append, mem_if_singleton, List.mem_singleton,
        List.not_mem_nil, or_false] at he
      rcases he with rfl | rfl | rfl | rfl | he | ⟨_, rfl⟩ | rfl | rfl
      · exact neutralEv_print i b _ (banner_ne_marker _)
      · exact neutralEv_info i b _
      · exact neutralEv_cmd3 i b _ _ _ _ (Or.inl (by decide))
      · exact neutralEv_info i b _
      · exact get_changed_packages_run_neutral w i b e he
      · exact neutralEv_err i b _
      · exact neutralEv_write i b _
      · exact neutralEv_info i b _
  · rw [if_pos hce] at he
    simp at he
    rcases he with rfl | rfl | rfl | rfl
    · exact neutralEv_print i b _ (banner_ne_marker _)
    · exact neutralEv_info i b _
    · exact neutralEv_cmd3 i b _ _ _ _ (Or.inl (by decide))
    · exact neutralEv_err i b _

theorem cmd_install_neutral (w : World) (pm : String) :
    NeutralEv w.installExit w.buildExit (Ev.cmd [pm, "install"] w.installExit) := by
  refine ⟨by simp [isPrSubmission], ?_, ?_⟩
  · intro pm2 k h
    simp at h
    omega
  · intro pm2 k h
    simp at h

theorem cmd_build_neutral (w : World) (pm : String) :
    NeutralEv w.installExit w.buildExit
      (Ev.cmd [pm, "run", "build:all"] w.buildExit) := by
  refine ⟨by simp [isPrSubmission], ?_, ?_⟩
  · intro pm2 k h
    simp at h
  · intro pm2 k h
    simp at h
    omega

theorem run_local_build_run_neutral (w : World) (pm : String) :
    (∀ e ∈ (run_local_build_run w pm).1,
      NeutralEv w.installExit w.buildExit e) ∧
    ((run_local_build_run w pm).2 = true → w.installExit = 0 ∧ w.buildExit = 0) := by
  unfold run_local_build_run runCommandEv
  by_cases hi : w.installExit = 0
  · rw [if_neg (by omega)]
    by_cases hb : w.buildExit = 0
    · rw [if_neg (by omega)]
      refine ⟨?_, fun _ => ⟨hi, hb⟩⟩
      intro e he
      simp at he
      rcases he with rfl | rfl | rfl | rfl | rfl | rfl
      · exact neutralEv_print _ _ _ (banner_ne_marker _)
      · exact neutralEv_info _ _ _
      · exact cmd_install_neutral w pm
      · exact neutralEv_info _ _ _
      · exact cmd_build_neutral w pm
      · exact neutralEv_info _ _ _
    · rw [if_pos hb]
      refine ⟨?_, by simp⟩
      intro e he
      simp at he
      rcases he with rfl | rfl | rfl | rfl | rfl | rfl
      · exact neutralEv_print _ _ _ (banner_ne_marker _)
      · exact neutralEv_info _ _ _
      · exact cmd_install_neutral w pm
      · exact neutralEv_info _ _ _
      · exact cmd_build_neutral w pm
      · exact neutralEv_err _ _ _
  · rw [if_pos hi]
    refine ⟨?_, by simp⟩
    intro e he
    simp at he
    rcases he with rfl | rfl | rfl | rfl
    · exact neutralEv_print _ _ _ (banner_ne_marker _)
    · exact neutralEv_info _ _ _
    · exact cmd_install_neutral w pm
    · exact neutralEv_err _ _ _


theorem forall_mem_append2 {P : Ev → Prop} {l1 l2 : List Ev}
    (h1 : ∀ e ∈ l1, P e) (h2 : ∀ e ∈ l2, P e) : ∀ e ∈ l1 ++ l2, P e := by
  intro e he
  rcases List.mem_append.mp he with h | h
  exacts [h1 e h, h2 e h]

/-- Every event of the pre-submission pipeline is neutral (it is not the PR
submission, and any install/build subprocess event carries the world's exit
code), and reaching the submission stage forces both install and build to
have exited zero. -/
theorem pbs_neutral (w : World) :
    (∀ e ∈ (pipeline_before_submission w).1,
      NeutralEv w.installExit w.buildExit e) ∧
    ((pipeline_before_submission w).2.isSome = true →
      w.installExit = 0 ∧ w.buildExit = 0) := by
  obtain ⟨evs, r, hpr⟩ : ∃ evs r, pipeline_before_submission w = (evs, r) :=
    ⟨_, _, rfl⟩
  rw [hpr]
  simp only [pipeline_before_submission] at hpr
  repeat' split at hpr
  all_goals (injection hpr with h1 h2; subst h1; subst h2)
  all_goals constructor
  any_goals
    (intro hs
     first
       | exact (run_local_build_run_neutral w _).2 (by assumption)
       | simp at hs)
  all_goals
    repeat' apply forall_mem_append2
  all_goals try refine List.forall_mem_singleton.mpr ?_
  all_goals
    first
      | exact load_config_run_neutral w _ _
      | exact get_current_branch_run_neutral w _ _
      | exact ask_multiline_run_neutral w _ _
      | exact ask_change_type_run_neutral w _ _
      | exact create_and_edit_changeset_run_neutral w _ _ _ _ _ _
      | exact (run_local_build_run_neutral w _).1
      | (intro e he
         obtain ⟨m, hm, rfl⟩ := List.mem_map.mp he
         first
           | exact neutralEv_err _ _ _
           | exact neutralEv_print _ _ _ (by decide))
      | (intro e he
         exact absurd he (List.not_mem_nil e))
      | exact neutralEv_print _ _ _ (banner_ne_marker _)
      | exact neutralEv_info _ _ _
      | exact neutralEv_err _ _ _

theorem azpr_no_install_build (o p r sb tb t d : String) (extra : List String)
    (az : Nat) (dry : Bool) :
    ∀ e ∈ (create_azure_pr_run o p r sb tb t d extra az dry).1,
      (∀ pm k, e ≠ Ev.cmd [pm, "install"] k) ∧
      (∀ pm k, e ≠ Ev.cmd [pm, "run", "build:all"] k) := by
  intro e he
  unfold create_azure_pr_run runCommandEv at he
  cases dry with
  | true =>
    simp at he
    rcases he with rfl | rfl | rfl | rfl <;>
      exact ⟨fun pm k h => by simp at h, fun pm k h => by simp at h⟩
  | false =>
    by_cases haz : az = 0
    · subst haz
      simp [azBaseCmd] at he
      rcases he with rfl | rfl | rfl | rfl <;>
        constructor <;> (intro pm k h; simp at h)
    · simp [azBaseCmd, haz] at he
      rcases he with rfl | rfl | rfl | rfl <;>
        constructor <;> (intro pm k h; simp at h)

/-- C7: whenever the trace contains an install subprocess or a build
subprocess with a nonzero exit code, the run exits with status 1 and the
PR submission never happens - it is neither executed nor displayed in
dry-run form. -/
theorem build_failure_blocks_pr (w : World) (dry : Bool)
    (h : installFailedIn (handle_create_pr w dry).1 ∨
         buildFailedIn (handle_create_pr w dry).1) :
    (handle_create_pr w dry).2 = 1 ∧
    prSubmissionIn (handle_create_pr w dry).1 = false := by
  obtain ⟨evs, r, hpr⟩ : ∃ evs r, pipeline_before_submission w = (evs, r) :=
    ⟨_, _, rfl⟩
  have hneutral := pbs_neutral w
  rw [hpr] at hneutral
  cases r with
  | none =>
    have hh : handle_create_pr w dry = (evs, 1) := by
      unfold handle_create_pr
      rw [hpr]
    rw [hh]
    refine ⟨rfl, ?_⟩
    unfold prSubmissionIn
    rw [List.any_eq_false]
    intro e he
    simpa using (hneutral.1 e he).1
  | some si =>
    obtain ⟨hi0, hb0⟩ := hneutral.2 (by simp)
    have hh : handle_create_pr w dry =
        (evs ++ (create_azure_pr_run si.org_url si.project si.repo
          si.source_branch si.target_branch si.title si.description_md
          w.azArgs w.azExit dry).1,
         if (create_azure_pr_run si.org_url si.project si.repo si.source_branch
            si.target_branch si.title si.description_md w.azArgs w.azExit
            dry).2 = true then 0 else 1) := by
      unfold handle_create_pr
      rw [hpr]
    rw [hh] at h
    exfalso
    rcases h with ⟨pm, k, hmem, hk⟩ | ⟨pm, k, hmem, hk⟩ <;>
      rcases List.mem_append.mp hmem with hin | hin
    · exact hk (((hneutral.1 _ hin).2.1 pm k rfl).trans hi0)
    · exact (azpr_no_install_build _ _ _ _ _ _ _ _ _ _ _ hin).1 pm k rfl
    · exact hk (((hneutral.1 _ hin).2.2 pm k rfl).trans hb0)
    · exact (azpr_no_install_build _ _ _ _ _ _ _ _ _ _ _ hin).2 pm k rfl

/-- Witness for C7: a world whose install step exits 1; the run exits 1 and
no PR submission appears in the trace. -/
theorem build_failure_blocks_pr_witness :
    (handle_create_pr worldInstallFails true).2 = 1 ∧
    prSubmissionIn (handle_create_pr worldInstallFails true).1 = false :=
  build_failure_blocks_pr worldInstallFails true
    (Or.inl ⟨"pnpm", 1, by decide, by decide⟩)

/-! ### C10: dry-run influences only the submission stage -/

/-- C10: for any world, the traces of the dry-run and live runs share a
common prefix containing every pre-submission event (config loading, branch
inspection, title derivation, prompts, the changeset scaffold subprocess
and file overwrite, the install and build subprocesses); beyond that
prefix, the dry-run tail performs no subprocess and no file write, and the
live tail performs nothing except the PR-submission subprocess itself -
dry-run suppresses only the final DevOps-CLI execution. -/
theorem dry_run_only_suppresses_submission (w : World) :
    ∃ pre s1 s0,
      (handle_create_pr w true).1 = pre ++ s1 ∧
      (handle_create_pr w false).1 = pre ++ s0 ∧
      (∀ e ∈ s1, (∀ c k, e ≠ Ev.cmd c k) ∧ (∀ c, e ≠ Ev.write c)) ∧
      (∀ e ∈ s0, isPrSubmission e = true ∨
        ((∀ c k, e ≠ Ev.cmd c k) ∧ (∀ c, e ≠ Ev.write c))) := by
  obtain ⟨evs, r, hpr⟩ : ∃ evs r, pipeline_before_submission w = (evs, r) :=
    ⟨_, _, rfl⟩
  cases r with
  | none =>
    have hh : ∀ dry, handle_create_pr w dry = (evs, 1) := fun dry => by
      unfold handle_create_pr
      rw [hpr]
    refine ⟨evs, [], [], by rw [hh]; simp, by rw [hh]; simp, by simp, by simp⟩
  | some si =>
    have hh : ∀ dry, handle_create_pr w dry =
        (evs ++ (create_azure_pr_run si.org_url si.project si.repo
          si.source_branch si.target_branch si.title si.description_md
          w.azArgs w.azExit dry).1,
         if (create_azure_pr_run si.org_url si.project si.repo si.source_branch
            si.target_branch si.title si.description_md w.azArgs w.azExit
            dry).2 = true then 0 else 1) := fun dry => by
      unfold handle_create_pr
      rw [hpr]
    refine ⟨evs ++ [Ev.print (sectionBanner "Azure DevOps PR")],
      [Ev.info "Dry-run is enabled: I will show you what I would do, but no PR will be created.",
       Ev.print "Command would be:",
       Ev.print (dryRunDisplay (azBaseCmd si.org_url si.project si.repo
         si.source_branch si.target_branch si.title si.description_md ++ w.azArgs))],
      (create_azure_pr_run si.org_url si.project si.repo si.source_branch
        si.target_branch si.title si.description_md w.azArgs w.azExit false).1.drop 1,
      ?_, ?_, ?_, ?_⟩
    · rw [hh]
      unfold create_azure_pr_run
      simp
    · rw [hh]
      unfold create_azure_pr_run runCommandEv
      by_cases haz : w.azExit = 0
      · simp [haz]
      · simp [haz]
    · intro e he
      simp at he
      rcases he with rfl | rfl | rfl <;>
        exact ⟨fun c k h => by simp at h, fun c h => by simp at h⟩
    · intro e he
      unfold create_azure_pr_run runCommandEv at he
      by_cases haz : w.azExit = 0
      · simp [haz] at he
        rcases he with rfl | rfl | rfl
        · exact Or.inr ⟨fun c k h => by simp at h, fun c h => by simp at h⟩
        · refine Or.inl ?_
          simp [isPrSubmission, azBaseCmd]
        · exact Or.inr ⟨fun c k h => by simp at h, fun c h => by simp at h⟩
      · simp [haz] at he
        rcases he with rfl | rfl | rfl
        · exact Or.inr ⟨fun c k h => by simp at h, fun c h => by simp at h⟩
        · refine Or.inl ?_
          simp [isPrSubmission, azBaseCmd]
        · exact Or.inr ⟨fun c k h => by simp at h, fun c h => by simp at h⟩

/-- Witness for C5 at a concrete changeset. -/
theorem changeset_content_amended_witness :
    changeset_write "OLD CONTENT" ["packages/core"] "@blacky" "minor"
        "  Did things  " =
      amendedChangesetContent ["packages/core"] "@blacky" "minor"
        "  Did things  " :=
  changeset_content_amended "OLD CONTENT" ["packages/core"] "@blacky" "minor"
    "  Did things  "

/-- Witness for C6 at concrete submission arguments. -/
theorem dry_run_never_executes_witness :
    (create_azure_pr_run "https://dev.azure.com/org" "proj" "repo" "feature/x"
      "main" "my title" "body" ["--draft"] 7 true).2 = true ∧
    Ev.print (dryRunDisplay (azBaseCmd "https://dev.azure.com/org" "proj" "repo"
        "feature/x" "main" "my title" "body" ++ ["--draft"])) ∈
      (create_azure_pr_run "https://dev.azure.com/org" "proj" "repo" "feature/x"
        "main" "my title" "body" ["--draft"] 7 true).1 ∧
    Ev.cmd (azBaseCmd "https://dev.azure.com/org" "proj" "repo" "feature/x"
        "main" "my title" "body" ++ ["--draft"]) 7 ∉
      (create_azure_pr_run "https://dev.azure.com/org" "proj" "repo" "feature/x"
        "main" "my title" "body" ["--draft"] 7 true).1 := by
  have h := dry_run_never_executes "https://dev.azure.com/org" "proj" "repo"
    "feature/x" "main" "my title" "body" ["--draft"] 7
  exact ⟨h.2.1, h.2.2, h.1 _ _⟩

/-- Witness for C8 at a concrete input. -/
theorem description_collection_amended_witness :
    ask_multiline_markdown ["a", " .", "b"] =
      pyStrip (joinNL (["a", " .", "b"].takeWhile fun l => pyStrip l ≠ ".")) :=
  description_collection_amended.1 ["a", " .", "b"]

/-- Witness for C10 at a world whose every stage succeeds. -/
theorem dry_run_only_suppresses_submission_witness :
    ∃ pre s1 s0,
      (handle_create_pr worldAllOk true).1 = pre ++ s1 ∧
      (handle_create_pr worldAllOk false).1 = pre ++ s0 ∧
      (∀ e ∈ s1, (∀ c k, e ≠ Ev.cmd c k) ∧ (∀ c, e ≠ Ev.write c)) ∧
      (∀ e ∈ s0, isPrSubmission e = true ∨
        ((∀ c k, e ≠ Ev.cmd c k) ∧ (∀ c, e ≠ Ev.write c))) :=
  dry_run_only_suppresses_submission worldAllOk
